import Mathlib

/-!
Verification of the mo SSA IR core (src/ir.h, src/ir_builder.cc, src/ir_printer.h)
against its natural-language specification.

This file gives a shallow embedding of the type system, the value/operand
model, the IR builder's validation logic and instruction dispatch, the
printer's predicate tables, and the module's type-interning registries, and
proves or refutes the specification's claims about them.

Conventions of the embedding:
* `Ty` mirrors the `Type` class hierarchy of ir.h as a tag-plus-payload sum.
  `IntegerType`/`FloatType` store their bit width in a `uint8_t` field;
  widths here are `Nat`, with representable C++ values being those below 256.
  `StructType` caches its size in a `size_t` field computed at body-set time;
  the embedding carries that cached size directly, since no claim inspects
  struct members.
* C++ `Type*` pointer comparisons between interned types are modelled by the
  structural comparison `ty_beq` (interning makes pointer equality and
  structural equality agree for types obtained from the module, which is
  itself the subject of claim C1).
* Sizes are in bytes exactly as in the source: `(bit_width + 7) / 8` for
  scalars, `sizeof(void *) = 8` for pointers.
* Fallible builder entry points return `Option`/a result sum; an `assert`
  failure in the C++ maps to `none`/`.failed`.
-/

namespace MoIR

/-- The `Type::TypeID` enumeration of ir.h. -/
inductive TypeID where
  | VoidTy
  | IntTy
  | FpTy
  | PtrTy
  | FuncTy
  | ArrayTy
  | StructTy
  | VecTy
  | QualifierTy
deriving DecidableEq

/-- The type lattice of ir.h: Void, Integer(width, unsigned), Float(width),
Pointer(element), Function(return, param types), Array(element, n),
Struct (cached size and tuple flag; members are not inspected by any claim),
Vector(element, n), and Qualified(qualifier bits, base). -/
inductive Ty where
  | void
  | int (bitWidth : Nat) (isUnsigned : Bool)
  | float (bitWidth : Nat)
  | ptr (elem : Ty)
  | func (ret : Ty) (params : List Ty)
  | array (elem : Ty) (n : Nat)
  | strct (cachedSize : Nat) (isTuple : Bool)
  | vec (elem : Ty) (n : Nat)
  | qualified (quals : Nat) (base : Ty)

/-- `Type::type_id()`: the stored tag of each concrete type class. -/
def type_id : Ty → TypeID
  | .void => .VoidTy
  | .int _ _ => .IntTy
  | .float _ => .FpTy
  | .ptr _ => .PtrTy
  | .func _ _ => .FuncTy
  | .array _ _ => .ArrayTy
  | .strct _ _ => .StructTy
  | .vec _ _ => .VecTy
  | .qualified _ _ => .QualifierTy

mutual

/-- Structural type equality, mirroring `Type::operator==` together with each
class's `is_equal` override. For module-interned types this coincides with
`Type*` pointer equality (claim C1), so the builder's pointer comparisons
are modelled with this function. -/
def ty_beq : Ty → Ty → Bool
  | Ty.void, Ty.void => true
  | Ty.int w u, Ty.int w2 u2 => w == w2 && u == u2
  | Ty.float w, Ty.float w2 => w == w2
  | Ty.ptr e, Ty.ptr e2 => ty_beq e e2
  | Ty.func r ps, Ty.func r2 ps2 => ty_beq r r2 && tys_beq ps ps2
  | Ty.array e n, Ty.array e2 n2 => n == n2 && ty_beq e e2
  | Ty.strct s t, Ty.strct s2 t2 => s == s2 && t == t2
  | Ty.vec e n, Ty.vec e2 n2 => n == n2 && ty_beq e e2
  | Ty.qualified q b, Ty.qualified q2 b2 => q == q2 && ty_beq b b2
  | _, _ => false

/-- Pointwise `ty_beq` on parameter-type lists (`FunctionType::is_equal`). -/
def tys_beq : List Ty → List Ty → Bool
  | [], [] => true
  | t :: ts, t2 :: ts2 => ty_beq t t2 && tys_beq ts ts2
  | _, _ => false

end

mutual

theorem ty_beq_refl : ∀ t : Ty, ty_beq t t = true
  | Ty.void => rfl
  | Ty.int w u => by simp [ty_beq]
  | Ty.float w => by simp [ty_beq]
  | Ty.ptr e => by simp [ty_beq, ty_beq_refl e]
  | Ty.func r ps => by simp [ty_beq, ty_beq_refl r, tys_beq_refl ps]
  | Ty.array e n => by simp [ty_beq, ty_beq_refl e]
  | Ty.strct s t => by simp [ty_beq]
  | Ty.vec e n => by simp [ty_beq, ty_beq_refl e]
  | Ty.qualified q b => by simp [ty_beq, ty_beq_refl b]

theorem tys_beq_refl : ∀ ts : List Ty, tys_beq ts ts = true
  | [] => rfl
  | t :: ts => by simp [tys_beq, ty_beq_refl t, tys_beq_refl ts]

end

/-- `is_void()`: true on `VoidType`; `QualifiedType` forwards to its base;
the `Type` base class returns false. -/
def is_void : Ty → Bool
  | .void => true
  | .qualified _ b => is_void b
  | _ => false

/-- `is_float()`: true on `FloatType`; `QualifiedType` forwards to its base. -/
def is_float : Ty → Bool
  | .float _ => true
  | .qualified _ b => is_float b
  | _ => false

/-- `is_integer()`: true on `IntegerType`; `QualifiedType` forwards to its base. -/
def is_integer : Ty → Bool
  | .int _ _ => true
  | .qualified _ b => is_integer b
  | _ => false

/-- `is_pointer()`: true on `PointerType`; `QualifiedType` forwards to its base. -/
def is_pointer : Ty → Bool
  | .ptr _ => true
  | .qualified _ b => is_pointer b
  | _ => false

/-- `is_function()`: true on `FunctionType`; `QualifiedType` forwards to its base. -/
def is_function : Ty → Bool
  | .func _ _ => true
  | .qualified _ b => is_function b
  | _ => false

/-- `is_array()`: true on `ArrayType`; `QualifiedType` forwards to its base. -/
def is_array : Ty → Bool
  | .array _ _ => true
  | .qualified _ b => is_array b
  | _ => false

/-- `is_struct()`: true on `StructType`; `QualifiedType` forwards to its base. -/
def is_struct : Ty → Bool
  | .strct _ _ => true
  | .qualified _ b => is_struct b
  | _ => false

/-- `is_tuple()`: `StructType` returns its `is_tuple_` flag; `QualifiedType`
forwards to its base; every other type returns false. -/
def is_tuple : Ty → Bool
  | .strct _ tup => tup
  | .qualified _ b => is_tuple b
  | _ => false

/-- `is_vector()`: true on `VectorType`; `QualifiedType` forwards to its base. -/
def is_vector : Ty → Bool
  | .vec _ _ => true
  | .qualified _ b => is_vector b
  | _ => false

/-- Call-by-call evaluation of the virtual `is_qualified()` with an explicit
stack-depth budget. The `Type` base class and every non-qualified override
return false immediately. `QualifiedType::is_qualified()` in ir.h is
`return is_qualified();` — an unconditional virtual self-call on the same
object — so each step on a qualified type consumes one stack frame and
re-enters the same call; exhausting the budget (`none`) models the C++
stack overflow. -/
def is_qualified_eval : Nat → Ty → Option Bool
  | 0, _ => none
  | fuel + 1, Ty.qualified q b => is_qualified_eval fuel (Ty.qualified q b)
  | _ + 1, _ => some false

/-- `Type::size()` in bytes. Scalars: `(bit_width + 7) / 8`; pointers:
`sizeof(void *) = 8`; void and function types: 0; vectors:
`element.size() * n` (ir.h); structs report their cached `size_`.
`ArrayType::size` has its body in ir.cc, which is not under src; modelled
from the spec: size = n · element.size(). `QualifiedType` forwards. -/
def size : Ty → Nat
  | .void => 0
  | .int w _ => (w + 7) / 8
  | .float w => (w + 7) / 8
  | .ptr _ => 8
  | .func _ _ => 0
  | .array e n => size e * n
  | .strct s _ => s
  | .vec e n => size e * n
  | .qualified _ b => size b

/-- `Type::bit_width()` (a `uint8_t` in C++, so aggregate results wrap mod
256). Scalars return their stored width; pointers `sizeof(void *) * 8 = 64`;
void and function types 0; arrays and structs `size() * 8`; vectors
`element.bit_width() * n`; `QualifiedType` forwards. -/
def bit_width : Ty → Nat
  | .void => 0
  | .int w _ => w
  | .float w => w
  | .ptr _ => 64
  | .func _ _ => 0
  | .array e n => (size e * n * 8) % 256
  | .strct s _ => (s * 8) % 256
  | .vec e n => (bit_width e * n) % 256
  | .qualified _ b => bit_width b

/-- An SSA value as the builder sees it: its type and an identity. -/
structure Val where
  ty : Ty
  vid : Nat

/-- The `Opcode` enumeration of ir.h. -/
inductive Opcode where
  | Add
  | Sub
  | Mul
  | UDiv
  | SDiv
  | URem
  | SRem
  | Neg
  | NotOp
  | FNeg
  | Alloca
  | Load
  | Store
  | GetElementPtr
  | ICmp
  | FCmp
  | Br
  | CondBr
  | Ret
  | Unreach
  | Phi
  | Call
  | ZExt
  | SExt
  | Trunc
  | SIToFP
  | FPToSI
  | FPExt
  | FPTrunc
  | BitCast
  | PtrToInt
  | IntToPtr
  | FPToUI
  | UIToFP
  | BitAnd
  | BitOr
  | BitXor
  | BitNot
  | Shl
  | LShr
  | AShr
deriving DecidableEq

end MoIR

namespace MoIR

/-- Outcome of `IRBuilder::create_cast`: either the source value is returned
unchanged with no instruction inserted (the `src_type == target_type` early
return), or a cast instruction with the given opcode is created and inserted,
or the trailing `assert(inst && "Unsupported cast operation")` (or the
pointer/int same-size assert) fails. -/
inductive CastResult where
  | reused (v : Val)
  | emitted (op : Opcode) (src : Val) (target : Ty)
  | failed

/-- `IRBuilder::create_cast` (ir_builder.cc): early-return on identical type
handle; integer→integer picks SExt when the source has strictly fewer bits
than the target, else Trunc; integer→float SIToFP; float→integer FPToSI;
float→float picks FPExt/FPTrunc by bit count; pointer→pointer BitCast;
pointer↔integer requires equal byte size and emits BitCast; anything else
fails the trailing assert. The `bits()` accessor of the builder's headers is
the stored bit width. -/
def create_cast (src_val : Val) (target_type : Ty) : CastResult :=
  let src_type := src_val.ty
  if ty_beq src_type target_type then .reused src_val
  else if is_integer src_type && is_integer target_type then
    if bit_width src_type < bit_width target_type then .emitted .SExt src_val target_type
    else .emitted .Trunc src_val target_type
  else if is_integer src_type && is_float target_type then .emitted .SIToFP src_val target_type
  else if is_float src_type && is_integer target_type then .emitted .FPToSI src_val target_type
  else if is_float src_type && is_float target_type then
    if bit_width src_type < bit_width target_type then .emitted .FPExt src_val target_type
    else .emitted .FPTrunc src_val target_type
  else if is_pointer src_type && is_pointer target_type then .emitted .BitCast src_val target_type
  else if (is_pointer src_type && is_integer target_type) ||
          (is_integer src_type && is_pointer target_type) then
    if size src_type == size target_type then .emitted .BitCast src_val target_type
    else .failed
  else .failed

/-- The validation asserts of `IRBuilder::create_sext` (ir_builder.cc):
source and target must have `type_id() == Type::IntTy`, and
`target_type->size() > val->type()->size()` — a comparison of byte sizes. -/
def create_sext_ok (val_type target_type : Ty) : Bool :=
  (type_id val_type == TypeID.IntTy) && (type_id target_type == TypeID.IntTy) &&
    decide (size val_type < size target_type)

/-- The validation asserts of `IRBuilder::create_trunc` (ir_builder.cc):
both integer `type_id`s and `target_type->size() < val->type()->size()`. -/
def create_trunc_ok (val_type target_type : Ty) : Bool :=
  (type_id val_type == TypeID.IntTy) && (type_id target_type == TypeID.IntTy) &&
    decide (size target_type < size val_type)

/-- The validation asserts of `IRBuilder::create_binary` (ir_builder.cc):
operand type handles must be equal; the common type id must be `IntTy` or
`FpTy`; then the opcode switch admits Add/Sub/Mul unconditionally, UDiv/SDiv
for integers, FCmp for floats, and every other opcode falls to
`assert(false && "Unsupported binary operation")`. -/
def create_binary_checks (opc : Opcode) (lhs_type rhs_type : Ty) : Bool :=
  ty_beq lhs_type rhs_type &&
    (type_id lhs_type == TypeID.IntTy || type_id lhs_type == TypeID.FpTy) &&
    (match opc with
     | .Add | .Sub | .Mul => true
     | .UDiv | .SDiv => type_id lhs_type == TypeID.IntTy
     | .FCmp => type_id lhs_type == TypeID.FpTy
     | _ => false)

/-- `IRBuilder::create_binary`: runs the validation asserts and, when they
pass, creates a `BinaryInst`. The body of `BinaryInst::create` is in ir.cc,
which is not under src; modelled from the spec: result type = operand type.
Returns the result type, `none` on assert failure. -/
def create_binary (opc : Opcode) (lhs rhs : Val) : Option Ty :=
  if create_binary_checks opc lhs.ty rhs.ty then some lhs.ty else none

end MoIR

namespace MoIR

/-- The `FCmpInst::Predicate` enumeration of ir.h, in declaration order. -/
inductive FCmpPred where
  | EQ
  | NE
  | LT
  | LE
  | GT
  | GE
  | ONE
  | OEQ
  | OLT
  | OLE
  | OGT
  | OGE
deriving DecidableEq

/-- `IRPrinter::get_fcmp_predicate_str` (ir_printer.h): the switch handles
EQ, NE, OLT, OLE, OGT, OGE and every other predicate takes the `default`
branch returning "unknown". -/
def get_fcmp_predicate_str : FCmpPred → String
  | .EQ => "oeq"
  | .NE => "one"
  | .OLT => "olt"
  | .OLE => "ole"
  | .OGT => "ogt"
  | .OGE => "oge"
  | _ => "unknown"

/-- `User::operand(i)` (ir.h): if `i >= operands_.size()` emit `MO_WARN` and
return `nullptr` (modelled as `none`); otherwise return `operands_.at(i)`. -/
def operand (operands : List Val) (i : Nat) : Option Val :=
  if i ≥ operands.length then none
  else operands.get? i

/-- The renaming loop of the `FunctionType` constructor (ir.h): walking the
parameter list from position `k`, a parameter whose name is empty is renamed
to "__arg" followed by its index; other parameters are kept unchanged. -/
def fixup_params_from (k : Nat) : List (String × Ty) → List (String × Ty)
  | [] => []
  | p :: rest =>
      (if p.1 = "" then ("__arg" ++ Nat.repr k, p.2) else p) :: fixup_params_from (k + 1) rest

/-- The stored `params_` of a `FunctionType` built from the given parameter
list: the constructor copies the list and runs the renaming loop from 0. -/
def function_type_params (params : List (String × Ty)) : List (String × Ty) :=
  fixup_params_from 0 params

/-- `FunctionType::param_name(index)` on a `FunctionType` constructed from
`params`: `params_[index].first`. -/
def param_name (params : List (String × Ty)) (index : Nat) : String :=
  ((function_type_params params).getD index ("", Ty.void)).1

/-- Modelled from the spec: the bodies of `BranchInst::create` and
`BranchInst::create_cond` are in ir.cc, which is not under src. Per the
spec's explicit-arity rule, an unconditional branch carries 1 operand (the
target). Operands are identified by value id. -/
def branch_create (target : Nat) : List Nat := [target]

/-- Modelled from the spec: a conditional branch carries 3 operands
(condition, true block, false block); body of `BranchInst::create_cond` is
in ir.cc, absent from src. -/
def branch_create_cond (cond : Nat) (true_bb : Nat) (false_bb : Nat) : List Nat :=
  [cond, true_bb, false_bb]

/-- The `MO_ASSERT` guard of `BranchInst::is_conditional` (ir.h): the operand
count must be 1 or 3. -/
def branch_arity_ok (operands : List Nat) : Bool :=
  operands.length == 3 || operands.length == 1

/-- `BranchInst::is_conditional` (ir.h): after the arity assert, returns
`operands_.size() == 3`. -/
def is_conditional (operands : List Nat) : Bool :=
  operands.length == 3

end MoIR

namespace MoIR

/-- Association-list lookup by key, as an `unordered_map::find`. -/
def tbl_lookup {κ : Type} [DecidableEq κ] : List (κ × Nat) → κ → Option Nat
  | [], _ => none
  | p :: rest, k => if p.1 = k then some p.2 else tbl_lookup rest k

/-- One interning registry of the `Module` (ir.h declares them as
`unordered_map`s from canonical keys to owned type objects): the entries
seen so far and the next fresh handle (a fresh heap address). -/
structure InternTable (κ : Type) where
  entries : List (κ × Nat)
  next_handle : Nat

/-- Modelled from the spec: the bodies of `Module::get_integer_type`,
`get_pointer_type` and `get_function_type` are in ir.cc, which is not under
src. Per the spec's hash-consing contract over the registry maps declared in
ir.h: look the canonical key up in the registry; on a hit return the stored
handle, otherwise allocate a fresh canonical instance, record it under the
key, and return it. -/
def intern_get {κ : Type} [DecidableEq κ] (t : InternTable κ) (k : κ) : Nat × InternTable κ :=
  match tbl_lookup t.entries k with
  | some h => (h, t)
  | none => (t.next_handle, ⟨t.entries ++ [(k, t.next_handle)], t.next_handle + 1⟩)

/-- Well-formedness of a registry: every stored handle is below the fresh
counter, and entries are functional and injective (one handle per key, one
key per handle) — the invariant a hash-consing map maintains. -/
def TableWF {κ : Type} (t : InternTable κ) : Prop :=
  (∀ p ∈ t.entries, p.2 < t.next_handle) ∧
  (∀ p ∈ t.entries, ∀ q ∈ t.entries, p.1 = q.1 ∨ p.2 = q.2 → p = q)

/-- The type-interning registries of `Module` relevant to the claims:
`integer_types_` keyed on (bit width, unsignedness), `pointer_types_` keyed
on the element type handle, `function_types_` keyed on the return type
handle and the ordered parameter type handles (names do not participate). -/
structure ModuleState where
  integer_types : InternTable (Nat × Bool)
  pointer_types : InternTable Nat
  function_types : InternTable (Nat × List Nat)

/-- All three registries of a module are well-formed. -/
def ModuleWF (m : ModuleState) : Prop :=
  TableWF m.integer_types ∧ TableWF m.pointer_types ∧ TableWF m.function_types

/-- A freshly constructed `Module`: empty registries. -/
def initModule : ModuleState :=
  ⟨⟨[], 0⟩, ⟨[], 0⟩, ⟨[], 0⟩⟩

/-- `Module::get_integer_type(bit_width, unsigned)` — interning on the
(width, signedness) key. -/
def get_integer_type (m : ModuleState) (w : Nat) (u : Bool) : Nat × ModuleState :=
  let r := intern_get m.integer_types (w, u)
  (r.1, { m with integer_types := r.2 })

/-- `Module::get_pointer_type(element_type)` — interning on the element
type handle. -/
def get_pointer_type (m : ModuleState) (element_type : Nat) : Nat × ModuleState :=
  let r := intern_get m.pointer_types element_type
  (r.1, { m with pointer_types := r.2 })

/-- `Module::get_function_type(return_type, param_types)` — interning on the
return type handle and the ordered parameter type handles. -/
def get_function_type (m : ModuleState) (return_type : Nat) (param_types : List Nat) :
    Nat × ModuleState :=
  let r := intern_get m.function_types (return_type, param_types)
  (r.1, { m with function_types := r.2 })

end MoIR

namespace MoIR

theorem tbl_lookup_mem {κ : Type} [DecidableEq κ] :
    ∀ {l : List (κ × Nat)} {k : κ} {h : Nat}, tbl_lookup l k = some h → (k, h) ∈ l := by
  intro l
  induction l with
  | nil => intro k h hl; simp [tbl_lookup] at hl
  | cons p rest ih =>
      intro k h hl
      by_cases hp : p.1 = k
      · rw [tbl_lookup, if_pos hp] at hl
        have hv : p.2 = h := Option.some.inj hl
        have hpe : p = (k, h) := by
          obtain ⟨a, b⟩ := p
          simp only at hp hv
          rw [hp, hv]
        rw [← hpe]
        exact List.mem_cons_self p rest
      · rw [tbl_lookup, if_neg hp] at hl
        exact List.mem_cons_of_mem p (ih hl)

theorem tbl_lookup_none_not_mem {κ : Type} [DecidableEq κ] :
    ∀ {l : List (κ × Nat)} {k : κ}, tbl_lookup l k = none → ∀ v, (k, v) ∉ l := by
  intro l
  induction l with
  | nil => intro k _ v; simp
  | cons p rest ih =>
      intro k hl v hv
      by_cases hp : p.1 = k
      · rw [tbl_lookup, if_pos hp] at hl
        exact absurd hl (by simp)
      · rw [tbl_lookup, if_neg hp] at hl
        rcases List.mem_cons.mp hv with heq | hm
        · exact hp (by rw [← heq])
        · exact ih hl v hm

theorem tbl_lookup_append_of_none {κ : Type} [DecidableEq κ] :
    ∀ {l : List (κ × Nat)} {k : κ}, tbl_lookup l k = none →
      ∀ l2, tbl_lookup (l ++ l2) k = tbl_lookup l2 k := by
  intro l
  induction l with
  | nil => intro k _ l2; simp
  | cons p rest ih =>
      intro k hl l2
      by_cases hp : p.1 = k
      · rw [tbl_lookup, if_pos hp] at hl
        exact absurd hl (by simp)
      · rw [tbl_lookup, if_neg hp] at hl
        rw [List.cons_append, tbl_lookup, if_neg hp]
        exact ih hl l2

theorem tbl_lookup_append_of_ne {κ : Type} [DecidableEq κ] :
    ∀ (l : List (κ × Nat)) {k k2 : κ}, k ≠ k2 → ∀ n,
      tbl_lookup (l ++ [(k, n)]) k2 = tbl_lookup l k2 := by
  intro l
  induction l with
  | nil => intro k k2 hne n; simp [tbl_lookup, hne]
  | cons p rest ih =>
      intro k k2 hne n
      by_cases hp : p.1 = k2
      · rw [List.cons_append, tbl_lookup, if_pos hp, tbl_lookup, if_pos hp]
      · rw [List.cons_append, tbl_lookup, if_neg hp, tbl_lookup, if_neg hp]
        exact ih hne n

/-- Core canonicity of a well-formed interning registry: after a request for
key `k`, a request for key `k2` returns the same handle exactly when the
keys are equal. -/
theorem intern_get_canonical {κ : Type} [DecidableEq κ] (t : InternTable κ)
    (hwf : TableWF t) (k k2 : κ) :
    ((intern_get (intern_get t k).2 k2).1 = (intern_get t k).1 ↔ k2 = k) := by
  obtain ⟨hlt, hinj⟩ := hwf
  cases h1 : tbl_lookup t.entries k with
  | some h =>
      cases h2 : tbl_lookup t.entries k2 with
      | some h2v =>
          simp only [intern_get, h1, h2]
          constructor
          · intro heq
            have hm1 : (k, h) ∈ t.entries := tbl_lookup_mem h1
            have hm2 : (k2, h2v) ∈ t.entries := tbl_lookup_mem h2
            have hpq : (k2, h2v) = (k, h) := hinj _ hm2 _ hm1 (Or.inr heq)
            exact congrArg Prod.fst hpq
          · intro heq
            subst heq
            exact Option.some.inj (h1.symm.trans h2) |>.symm
      | none =>
          simp only [intern_get, h1, h2]
          constructor
          · intro heq
            have hless : h < t.next_handle := hlt _ (tbl_lookup_mem h1)
            omega
          · intro heq
            subst heq
            exact absurd (h1.symm.trans h2) (by simp)
  | none =>
      by_cases hk : k2 = k
      · subst hk
        have hl2 : tbl_lookup (t.entries ++ [(k2, t.next_handle)]) k2 = some t.next_handle := by
          rw [tbl_lookup_append_of_none h1]
          simp [tbl_lookup]
        simp only [intern_get, h1, hl2]
      · have hne : k ≠ k2 := fun hh => hk hh.symm
        have hl2 : tbl_lookup (t.entries ++ [(k, t.next_handle)]) k2 = tbl_lookup t.entries k2 :=
          tbl_lookup_append_of_ne t.entries hne t.next_handle
        cases h2 : tbl_lookup t.entries k2 with
        | some h2v =>
            have hlt2 : h2v < t.next_handle := hlt _ (tbl_lookup_mem h2)
            simp only [intern_get, h1, hl2, h2]
            constructor
            · intro heq; omega
            · intro heq; exact absurd heq hk
        | none =>
            simp only [intern_get, h1, hl2, h2]
            constructor
            · intro heq; omega
            · intro heq; exact absurd heq hk

/-- Interning preserves the registry invariant. -/
theorem intern_get_preserves_wf {κ : Type} [DecidableEq κ] (t : InternTable κ)
    (hwf : TableWF t) (k : κ) : TableWF (intern_get t k).2 := by
  obtain ⟨hlt, hinj⟩ := hwf
  cases h1 : tbl_lookup t.entries k with
  | some h =>
      rw [intern_get, h1]
      exact ⟨hlt, hinj⟩
  | none =>
      rw [intern_get, h1]
      constructor
      · intro p hp
        rcases List.mem_append.mp hp with hp | hp
        · exact Nat.lt_succ_of_lt (hlt _ hp)
        · rw [List.mem_singleton.mp hp]
          exact Nat.lt_succ_self _
      · intro p hp q hq hor
        rcases List.mem_append.mp hp with hp | hp <;> rcases List.mem_append.mp hq with hq | hq
        · exact hinj _ hp _ hq hor
        · exfalso
          rw [List.mem_singleton.mp hq] at hor
          rcases hor with hkey | hhandle
          · have hk1 : p.1 = k := by simpa using hkey
            have hmem : (k, p.2) ∈ t.entries := by
              have hpe : p = (k, p.2) := by rw [← hk1]
              rw [← hpe]
              exact hp
            exact tbl_lookup_none_not_mem h1 p.2 hmem
          · have : p.2 < t.next_handle := hlt _ hp
            simp only at hhandle
            omega
        · exfalso
          rw [List.mem_singleton.mp hp] at hor
          rcases hor with hkey | hhandle
          · have hk1 : q.1 = k := by simpa using hkey.symm
            have hmem : (k, q.2) ∈ t.entries := by
              have hqe : q = (k, q.2) := by rw [← hk1]
              rw [← hqe]
              exact hq
            exact tbl_lookup_none_not_mem h1 q.2 hmem
          · have : q.2 < t.next_handle := hlt _ hq
            simp only at hhandle
            omega
        · rw [List.mem_singleton.mp hp, List.mem_singleton.mp hq]

end MoIR

namespace MoIR

theorem arg_name_ne_empty (i : Nat) : ("__arg" ++ Nat.repr i) ≠ "" := by
  intro h
  have hlen := congrArg String.length h
  rw [String.length_append] at hlen
  have h5 : String.length "__arg" = 5 := rfl
  have h0 : String.length "" = 0 := rfl
  omega

theorem fixup_params_from_get (ps : List (String × Ty)) :
    ∀ k i, (fixup_params_from k ps).get? i =
      (ps.get? i).map (fun p => if p.1 = "" then ("__arg" ++ Nat.repr (k + i), p.2) else p) := by
  induction ps with
  | nil => intro k i; simp [fixup_params_from]
  | cons p rest ih =>
      intro k i
      cases i with
      | zero => simp [fixup_params_from]
      | succ n =>
          have harith : k + 1 + n = k + (n + 1) := by omega
          simp only [fixup_params_from, List.get?_cons_succ]
          rw [ih (k + 1) n, harith]

/-- C1: for every two type requests on the same `Module` with identical
canonical interning key — `get_integer_type` on (width, signedness),
`get_pointer_type` on the element type, `get_function_type` on the return
type and the ordered parameter types — the returned handles are equal
exactly when the keys are equal, so structural equality and pointer identity
coincide for interned types; interning keeps every registry well-formed. -/
theorem type_interning_canonical (m : ModuleState) (hm : ModuleWF m)
    (w w2 : Nat) (u u2 : Bool) (e e2 : Nat) (r r2 : Nat) (ps ps2 : List Nat) :
    ((get_integer_type (get_integer_type m w u).2 w2 u2).1 = (get_integer_type m w u).1 ↔
       (w2 = w ∧ u2 = u)) ∧
    ((get_pointer_type (get_pointer_type m e).2 e2).1 = (get_pointer_type m e).1 ↔ e2 = e) ∧
    ((get_function_type (get_function_type m r ps).2 r2 ps2).1 = (get_function_type m r ps).1 ↔
       (r2 = r ∧ ps2 = ps)) ∧
    ModuleWF (get_integer_type m w u).2 ∧
    ModuleWF (get_pointer_type m e).2 ∧
    ModuleWF (get_function_type m r ps).2 := by
  obtain ⟨h1, h2, h3⟩ := hm
  refine ⟨?_, ?_, ?_, ?_, ?_, ?_⟩
  · have hc := intern_get_canonical m.integer_types h1 (w, u) (w2, u2)
    simpa [get_integer_type, Prod.mk.injEq] using hc
  · have hc := intern_get_canonical m.pointer_types h2 e e2
    simpa [get_pointer_type] using hc
  · have hc := intern_get_canonical m.function_types h3 (r, ps) (r2, ps2)
    simpa [get_function_type, Prod.mk.injEq] using hc
  · exact ⟨intern_get_preserves_wf _ h1 _, h2, h3⟩
  · exact ⟨h1, intern_get_preserves_wf _ h2 _, h3⟩
  · exact ⟨h1, h2, intern_get_preserves_wf _ h3 _⟩

/-- Witness for C1 at a concrete module: requesting i32 twice from a fresh
module returns the same handle. -/
theorem type_interning_canonical_witness :
    (get_integer_type (get_integer_type initModule 32 false).2 32 false).1 =
      (get_integer_type initModule 32 false).1 :=
  ((type_interning_canonical initModule
      (by refine ⟨⟨?_, ?_⟩, ⟨?_, ?_⟩, ⟨?_, ?_⟩⟩ <;> simp [initModule])
      32 32 false false 0 0 0 0 [] []).1).mpr ⟨rfl, rfl⟩

/-- Counterexample to C2 as stated: casting a pointer value to an integer
type of equal bit width (both 64) emits a BitCast instruction, not a
PtrToInt. -/
theorem cast_ptr_int_counterexample :
    create_cast ⟨Ty.ptr (Ty.int 32 false), 0⟩ (Ty.int 64 false) =
      CastResult.emitted Opcode.BitCast ⟨Ty.ptr (Ty.int 32 false), 0⟩ (Ty.int 64 false) ∧
    bit_width (Ty.ptr (Ty.int 32 false)) = 64 ∧
    bit_width (Ty.int 64 false) = 64 ∧
    Opcode.BitCast ≠ Opcode.PtrToInt ∧
    Opcode.BitCast ≠ Opcode.IntToPtr := by
  refine ⟨rfl, rfl, rfl, by decide, by decide⟩

/-- C2 (amended): for every value of pointer type and integer target of equal
byte size — and symmetrically integer source to pointer target —
`IRBuilder::create_cast` emits a BitCast instruction (the source has no
PtrToInt/IntToPtr branch in `create_cast`). -/
theorem cast_ptr_int_amended (e : Ty) (w : Nat) (u : Bool) (v v2 : Val)
    (hv : v.ty = Ty.ptr e) (hv2 : v2.ty = Ty.int w u)
    (hsz : size (Ty.ptr e) = size (Ty.int w u)) :
    create_cast v (Ty.int w u) = CastResult.emitted Opcode.BitCast v (Ty.int w u) ∧
    create_cast v2 (Ty.ptr e) = CastResult.emitted Opcode.BitCast v2 (Ty.ptr e) := by
  obtain ⟨vt, vid⟩ := v
  obtain ⟨vt2, vid2⟩ := v2
  have hv' : vt = Ty.ptr e := hv
  have hv2' : vt2 = Ty.int w u := hv2
  subst hv'
  subst hv2'
  constructor
  · show (if size (Ty.ptr e) == size (Ty.int w u) then
        CastResult.emitted Opcode.BitCast ⟨Ty.ptr e, vid⟩ (Ty.int w u)
      else CastResult.failed) =
      CastResult.emitted Opcode.BitCast ⟨Ty.ptr e, vid⟩ (Ty.int w u)
    rw [hsz]
    simp
  · show (if size (Ty.int w u) == size (Ty.ptr e) then
        CastResult.emitted Opcode.BitCast ⟨Ty.int w u, vid2⟩ (Ty.ptr e)
      else CastResult.failed) =
      CastResult.emitted Opcode.BitCast ⟨Ty.int w u, vid2⟩ (Ty.ptr e)
    rw [hsz.symm]
    simp

/-- Witness for C2 (amended) at i64 and a concrete pointer type. -/
theorem cast_ptr_int_amended_witness :
    create_cast ⟨Ty.ptr (Ty.int 8 false), 1⟩ (Ty.int 64 true) =
      CastResult.emitted Opcode.BitCast ⟨Ty.ptr (Ty.int 8 false), 1⟩ (Ty.int 64 true) ∧
    create_cast ⟨Ty.int 64 true, 2⟩ (Ty.ptr (Ty.int 8 false)) =
      CastResult.emitted Opcode.BitCast ⟨Ty.int 64 true, 2⟩ (Ty.ptr (Ty.int 8 false)) :=
  cast_ptr_int_amended (Ty.int 8 false) 64 true ⟨Ty.ptr (Ty.int 8 false), 1⟩
    ⟨Ty.int 64 true, 2⟩ rfl rfl rfl

/-- Counterexample to C3 as stated: i8 is strictly wider than i1 in bits, yet
`create_sext` from i1 to i8 fails its validation (the assert compares byte
sizes, and both types occupy one byte). -/
theorem sext_counterexample :
    bit_width (Ty.int 1 false) < bit_width (Ty.int 8 false) ∧
    create_sext_ok (Ty.int 1 false) (Ty.int 8 false) = false := by
  decide

/-- C3 (amended): `create_sext` between integer types succeeds exactly when
the target's byte size `(bits + 7) / 8` strictly exceeds the source's, and
`create_trunc` exactly when it is strictly smaller; in particular sext from
i32 to i16 fails the width assertion while trunc from i32 to i16 succeeds. -/
theorem sext_trunc_byte_width (w : Nat) (u : Bool) (w2 : Nat) (u2 : Bool) :
    (create_sext_ok (Ty.int w u) (Ty.int w2 u2) = true ↔ (w + 7) / 8 < (w2 + 7) / 8) ∧
    (create_trunc_ok (Ty.int w u) (Ty.int w2 u2) = true ↔ (w2 + 7) / 8 < (w + 7) / 8) ∧
    create_sext_ok (Ty.int 32 false) (Ty.int 16 false) = false ∧
    create_trunc_ok (Ty.int 32 false) (Ty.int 16 false) = true := by
  refine ⟨?_, ?_, by decide, by decide⟩ <;>
    simp [create_sext_ok, create_trunc_ok, type_id, size]

/-- Witness for C3 (amended): sext from i8 to i16 passes validation. -/
theorem sext_trunc_byte_width_witness :
    create_sext_ok (Ty.int 8 false) (Ty.int 16 false) = true :=
  (sext_trunc_byte_width 8 false 16 false).1.mpr (by decide)

/-- Counterexample to C4 as stated: `create_binary` with opcode URem on two
i32 operands hits the `default: assert(false && "Unsupported binary
operation")` branch and fails. -/
theorem binary_urem_counterexample :
    create_binary Opcode.URem ⟨Ty.int 32 false, 0⟩ ⟨Ty.int 32 false, 1⟩ = none := rfl

/-- C4 (amended): for two values of the same integer type, `create_binary`
succeeds for Add, Sub, Mul, UDiv and SDiv, producing a result of the operand
type, while URem and SRem fall to the unsupported-operation assertion and
fail. -/
theorem binary_supported_opcodes (w : Nat) (u : Bool) (i j : Nat) :
    create_binary Opcode.Add ⟨Ty.int w u, i⟩ ⟨Ty.int w u, j⟩ = some (Ty.int w u) ∧
    create_binary Opcode.Sub ⟨Ty.int w u, i⟩ ⟨Ty.int w u, j⟩ = some (Ty.int w u) ∧
    create_binary Opcode.Mul ⟨Ty.int w u, i⟩ ⟨Ty.int w u, j⟩ = some (Ty.int w u) ∧
    create_binary Opcode.UDiv ⟨Ty.int w u, i⟩ ⟨Ty.int w u, j⟩ = some (Ty.int w u) ∧
    create_binary Opcode.SDiv ⟨Ty.int w u, i⟩ ⟨Ty.int w u, j⟩ = some (Ty.int w u) ∧
    create_binary Opcode.URem ⟨Ty.int w u, i⟩ ⟨Ty.int w u, j⟩ = none ∧
    create_binary Opcode.SRem ⟨Ty.int w u, i⟩ ⟨Ty.int w u, j⟩ = none := by
  have hb : ty_beq (Ty.int w u) (Ty.int w u) = true := ty_beq_refl _
  refine ⟨?_, ?_, ?_, ?_, ?_, ?_, ?_⟩ <;>
    simp [create_binary, create_binary_checks, hb, type_id]

/-- C5: `QualifiedType` forwards every type predicate and size query to its
base type — except `is_qualified`, whose body `return is_qualified();` in
ir.h re-enters itself unconditionally, so its evaluation exhausts any stack
budget and never returns (the code bug refuting the claim's termination
requirement for `is_qualified`). -/
theorem qualified_forwarding_and_divergence :
    (∀ q b, is_void (Ty.qualified q b) = is_void b ∧
            is_float (Ty.qualified q b) = is_float b ∧
            is_integer (Ty.qualified q b) = is_integer b ∧
            is_pointer (Ty.qualified q b) = is_pointer b ∧
            is_function (Ty.qualified q b) = is_function b ∧
            is_array (Ty.qualified q b) = is_array b ∧
            is_struct (Ty.qualified q b) = is_struct b ∧
            is_tuple (Ty.qualified q b) = is_tuple b ∧
            is_vector (Ty.qualified q b) = is_vector b ∧
            size (Ty.qualified q b) = size b ∧
            bit_width (Ty.qualified q b) = bit_width b) ∧
    (∀ fuel q b, is_qualified_eval fuel (Ty.qualified q b) = none) := by
  constructor
  · intro q b
    exact ⟨rfl, rfl, rfl, rfl, rfl, rfl, rfl, rfl, rfl, rfl, rfl⟩
  · intro fuel
    induction fuel with
    | zero => intro q b; rfl
    | succ f ih =>
        intro q b
        rw [is_qualified_eval]
        exact ih q b

/-- Counterexample to C6 as stated: the printer maps the predicate LT of the
`FCmpInst::Predicate` enumeration to "unknown", which is outside the allowed
set. -/
theorem fcmp_lt_unknown :
    get_fcmp_predicate_str FCmpPred.LT = "unknown" ∧
    "unknown" ∉ ["oeq", "one", "olt", "ole", "ogt", "oge"] := by
  constructor
  · rfl
  · decide

/-- C6 (amended): the printer emits a predicate string in {oeq, one, olt,
ole, ogt, oge} exactly for the predicates its switch handles (EQ, NE, OLT,
OLE, OGT, OGE); the remaining predicates LT, LE, GT, GE, ONE and OEQ take
the default branch and print "unknown". -/
theorem fcmp_predicate_str_partition (p : FCmpPred) :
    (p ∈ [FCmpPred.EQ, FCmpPred.NE, FCmpPred.OLT, FCmpPred.OLE, FCmpPred.OGT, FCmpPred.OGE] →
      get_fcmp_predicate_str p ∈ ["oeq", "one", "olt", "ole", "ogt", "oge"]) ∧
    (p ∈ [FCmpPred.LT, FCmpPred.LE, FCmpPred.GT, FCmpPred.GE, FCmpPred.ONE, FCmpPred.OEQ] →
      get_fcmp_predicate_str p = "unknown") := by
  cases p <;> exact ⟨by decide, by decide⟩

/-- Witness for C6 (amended): OLT prints "olt"-class output, while OEQ —
although a member of the enumeration — prints "unknown". -/
theorem fcmp_predicate_str_partition_witness :
    get_fcmp_predicate_str FCmpPred.OLT ∈ ["oeq", "one", "olt", "ole", "ogt", "oge"] ∧
    get_fcmp_predicate_str FCmpPred.OEQ = "unknown" :=
  ⟨(fcmp_predicate_str_partition FCmpPred.OLT).1 (by decide),
   (fcmp_predicate_str_partition FCmpPred.OEQ).2 (by decide)⟩

/-- C7: an unconditional branch carries exactly 1 operand and a conditional
branch exactly 3, both satisfying the `MO_ASSERT` arity guard, and
`is_conditional` returns true exactly when the operand count is 3. -/
theorem branch_operand_arity (t c a b : Nat) (ops : List Nat) :
    (branch_create t).length = 1 ∧
    (branch_create_cond c a b).length = 3 ∧
    branch_arity_ok (branch_create t) = true ∧
    branch_arity_ok (branch_create_cond c a b) = true ∧
    is_conditional (branch_create t) = false ∧
    is_conditional (branch_create_cond c a b) = true ∧
    (is_conditional ops = true ↔ ops.length = 3) := by
  simp [branch_create, branch_create_cond, branch_arity_ok, is_conditional]

/-- Witness for C7 at a concrete three-operand list. -/
theorem branch_operand_arity_witness : is_conditional [5, 6, 7] = true :=
  (branch_operand_arity 0 0 0 0 [5, 6, 7]).2.2.2.2.2.2.mpr rfl

/-- C8: `User::operand(i)` returns the null sentinel when `i` is at or past
the operand count, and the i-th operand otherwise. -/
theorem operand_bounds (ops : List Val) (i : Nat) :
    (ops.length ≤ i → operand ops i = none) ∧
    (i < ops.length → operand ops i = ops.get? i ∧ operand ops i ≠ none) := by
  constructor
  · intro h
    simp [operand, h]
  · intro h
    have hn : ¬ i ≥ ops.length := by omega
    refine ⟨by simp [operand, hn], ?_⟩
    simp only [operand, if_neg hn]
    rw [Ne, List.get?_eq_none]
    omega

/-- Witness for C8: out-of-bounds access on a one-operand user yields the
sentinel; index 0 yields the operand. -/
theorem operand_bounds_witness :
    operand [⟨Ty.void, 0⟩] 3 = none ∧
    (operand [⟨Ty.void, 0⟩] 0 = [⟨Ty.void, 0⟩].get? 0 ∧ operand [⟨Ty.void, 0⟩] 0 ≠ none) :=
  ⟨(operand_bounds [⟨Ty.void, 0⟩] 3).1 (by decide),
   (operand_bounds [⟨Ty.void, 0⟩] 0).2 (by decide)⟩

/-- C9: `create_cast` of a value to its own type returns the value itself
and creates no instruction. -/
theorem cast_to_own_type_reuses (v : Val) :
    create_cast v v.ty = CastResult.reused v := by
  simp [create_cast, ty_beq_refl]

/-- C10: in a `FunctionType` built from a parameter list, a parameter whose
given name is empty is renamed to "__arg" followed by its zero-based index,
a parameter with a non-empty name keeps it, and `param_name` never returns
an empty string. -/
theorem function_type_param_names (params : List (String × Ty)) (i : Nat)
    (h : i < params.length) :
    param_name params i =
      (if (params.getD i ("", Ty.void)).1 = "" then "__arg" ++ Nat.repr i
       else (params.getD i ("", Ty.void)).1) ∧
    param_name params i ≠ "" := by
  obtain ⟨p, hp⟩ : ∃ p, params.get? i = some p :=
    ⟨params.get ⟨i, h⟩, List.get?_eq_get h⟩
  have hgd : params.getD i ("", Ty.void) = p := by
    rw [List.getD_eq_getD_get?, hp]
    rfl
  have hpn : param_name params i =
      (if p.1 = "" then ("__arg" ++ Nat.repr (0 + i), p.2) else p).1 := by
    rw [param_name, List.getD_eq_getD_get?, function_type_params,
      fixup_params_from_get params 0 i, hp]
    rfl
  rw [hpn, hgd]
  by_cases hemp : p.1 = ""
  · rw [if_pos hemp, if_pos hemp]
    simp only [Nat.zero_add]
    exact ⟨trivial, arg_name_ne_empty i⟩
  · rw [if_neg hemp, if_neg hemp]
    exact ⟨rfl, hemp⟩

/-- Witness for C10 on a concrete two-parameter list: the unnamed parameter
becomes "__arg0" (non-empty) and the named one keeps "x". -/
theorem function_type_param_names_witness :
    param_name [("", Ty.int 32 false), ("x", Ty.int 8 true)] 0 ≠ "" ∧
    param_name [("", Ty.int 32 false), ("x", Ty.int 8 true)] 1 ≠ "" :=
  ⟨(function_type_param_names [("", Ty.int 32 false), ("x", Ty.int 8 true)] 0 (by decide)).2,
   (function_type_param_names [("", Ty.int 32 false), ("x", Ty.int 8 true)] 1 (by decide)).2⟩

end MoIR
